import Mathlib

/-!
Verification development for the neuron-emqx gateway core.

Shallow embedding of the C sources:
  * `src/base/group.c`           — tag group model (add/update/delete tag, interval
                                   update, change-detection).
  * `src/base/tag.c`             — address-option parser (`neu_datatag_parse_addr_option`).
  * `src/event/event_linux.c`    — event-loop slot table and BLOCK-timer dispatch.
  * `src/base/msg_internal.h`    — message construction (`neu_msg_new`).
  * `src/core/manager_internal.c`— manager flows (`del_node`, `neu_manager_add_drivers`,
                                   `neu_manager_subscribe`).

Machine integers are modeled as `Nat`/`Int`; wall-clock reads
(`gettimeofday`) are passed as an explicit `now` argument; the plugin,
node and subscription managers, whose sources are not part of this tree,
are modeled from the specification where noted.
-/

namespace Neuron

/-- Error codes from `errcodes.h` (values opaque; constructors are the
distinct codes used by the embedded functions; `success` is `NEU_ERR_SUCCESS = 0`). -/
inductive NeuErr where
  | success
  | einternal
  | nodeNotExist
  | nodeExist
  | nodeNotAllowDelete
  | nodeNotAllowSubscribe
  | libraryNotFound
  | libraryNotAllowCreateInstance
  | libraryFailedToOpen
  | adapterCreateError
  | pluginTypeNotSupport
  | groupMaxGroups
  | groupNotExist
  | groupAlreadySubscribed
  | mqttSubscribeFailure
  | tagNameConflict
  | tagNotExist
  deriving DecidableEq, Repr

/-- Tag data types (`neu_type_e`). -/
inductive TagType where
  | bit | bool | int8 | uint8 | int16 | uint16 | int32 | uint32
  | int64 | uint64 | float | double | string | bytes
  | word | dword | lword
  deriving DecidableEq, Repr

/-- The tag attribute bitset over {READ, WRITE, SUBSCRIBE, STATIC}
(`neu_attribute_e`), modeled as one boolean per flag. -/
structure TagAttribute where
  read : Bool
  write : Bool
  subscribe : Bool
  static : Bool
  deriving DecidableEq, Repr

/-- `neu_datatag_t`: a named point on a device (value cell and parsed
address option omitted; the embedded operations do not read them). -/
structure NeuDatatag where
  name : String
  address : String
  ttype : TagType
  attrs : TagAttribute
  precision : Nat
  decimal : Int
  description : String
  deriving DecidableEq, Repr

/-- `neu_tag_attribute_test(tag, NEU_ATTRIBUTE_STATIC)`. -/
def tagIsStatic (t : NeuDatatag) : Bool := t.attrs.static

/-- `neu_tag_attribute_test` for READ resp. SUBSCRIBE combined as in
`split_static_array`'s else-if branch. -/
def tagIsSubscribeOrRead (t : NeuDatatag) : Bool :=
  t.attrs.subscribe || t.attrs.read

/-- `struct neu_group` from `src/base/group.c`: name, hash table of tags
(modeled as a list in insertion order, names unique), update interval and
the change timestamp.  The mutex only serializes access and has no
sequential content. -/
structure NeuGroup where
  name : String
  tags : List NeuDatatag
  interval : Nat
  timestamp : Int
  deriving DecidableEq, Repr

/-- `HASH_FIND_STR(group->tags, name, el)`. -/
def groupFindTag (g : NeuGroup) (name : String) : Option NeuDatatag :=
  g.tags.find? (fun t => t.name = name)

/-- `update_timestamp`: sets the group timestamp to the current
`gettimeofday` reading in microseconds, passed here explicitly as `now`. -/
def update_timestamp (g : NeuGroup) (now : Int) : NeuGroup :=
  { g with timestamp := now }

/-- `neu_group_update`: change the interval; the timestamp is updated only
when the interval actually differs.  Always returns `NEU_ERR_SUCCESS`. -/
def neu_group_update (g : NeuGroup) (interval : Nat) (now : Int) :
    NeuErr × NeuGroup :=
  if g.interval ≠ interval then
    (.success, update_timestamp { g with interval := interval } now)
  else
    (.success, g)

/-- `neu_group_add_tag`: fails with `NEU_ERR_TAG_NAME_CONFLICT` when a tag
of the same name exists, otherwise duplicates the tag into the hash table
(`HASH_ADD_STR` appends in iteration order) and updates the timestamp. -/
def neu_group_add_tag (g : NeuGroup) (tag : NeuDatatag) (now : Int) :
    NeuErr × NeuGroup :=
  match groupFindTag g tag.name with
  | some _ => (.tagNameConflict, g)
  | none =>
      (.success, update_timestamp { g with tags := g.tags ++ [tag] } now)

/-- `neu_group_update_tag`: fails with `NEU_ERR_TAG_NOT_EXIST` when no tag
of the name exists, otherwise `neu_tag_copy`s the new content over the
stored element and updates the timestamp. -/
def neu_group_update_tag (g : NeuGroup) (tag : NeuDatatag) (now : Int) :
    NeuErr × NeuGroup :=
  match groupFindTag g tag.name with
  | some _ =>
      (.success, update_timestamp
        { g with tags := g.tags.map (fun t => if t.name = tag.name then tag else t) } now)
  | none => (.tagNotExist, g)

/-- `neu_group_del_tag`: fails with `NEU_ERR_TAG_NOT_EXIST` when no tag of
the name exists, otherwise removes it (`HASH_DEL`) and updates the
timestamp. -/
def neu_group_del_tag (g : NeuGroup) (tagName : String) (now : Int) :
    NeuErr × NeuGroup :=
  match groupFindTag g tagName with
  | some _ =>
      (.success, update_timestamp
        { g with tags := g.tags.filter (fun t => t.name ≠ tagName) } now)
  | none => (.tagNotExist, g)

/-- `split_static_array`: first output collects the STATIC tags, second
the non-STATIC tags having SUBSCRIBE or READ, in table iteration order. -/
def split_static_array (tags : List NeuDatatag) :
    List NeuDatatag × List NeuDatatag :=
  (tags.filter (fun t => tagIsStatic t),
   tags.filter (fun t => !tagIsStatic t && tagIsSubscribeOrRead t))

/-- `neu_group_change_test`: when the group's timestamp differs from the
caller's last-seen timestamp, the callback receives the group's current
timestamp, the two split arrays and the interval; otherwise nothing
happens.  The callback invocation is modeled as the returned payload. -/
def neu_group_change_test (g : NeuGroup) (timestamp : Int) :
    Option (Int × List NeuDatatag × List NeuDatatag × Nat) :=
  if g.timestamp ≠ timestamp then
    let s := split_static_array g.tags
    some (g.timestamp, s.1, s.2, g.interval)
  else
    none

/-- `neu_group_is_change`. -/
def neu_group_is_change (g : NeuGroup) (timestamp : Int) : Bool :=
  g.timestamp ≠ timestamp

/-! ## Address-option parsing (`src/base/tag.c`) -/

/-- `find_last_character(str, c)`: pointer to the last occurrence of `c`
in `str`, modeled as the suffix starting at that occurrence (`none` for
`NULL`). -/
def find_last_character : List Char → Char → Option (List Char)
  | [], _ => none
  | a :: rest, c =>
      match find_last_character rest c with
      | some r => some r
      | none => if a = c then some (a :: rest) else none

/-- C `isspace` for the default locale. -/
def cIsSpace (c : Char) : Bool :=
  c = ' ' || c = '\t' || c = '\n' || c = '\x0b' || c = '\x0c' || c = '\r'

/-- Digit run to a natural number. -/
def natOfDigits (ds : List Char) : Nat :=
  ds.foldl (fun a c => 10 * a + (c.toNat - '0'.toNat)) 0

/-- Wrap an integer to the range of `signed char`, as storing a converted
value through `%hhd` does. -/
def wrapInt8 (v : Int) : Int :=
  let w := v % 256
  if w < 128 then w else w - 256

/-- The `%hhd` conversion of `sscanf`: skip white space, optional sign,
then a non-empty digit run; `none` models matching failure (the target
byte is left unwritten). -/
def scan_hhd (s : List Char) : Option Int :=
  let s1 := s.dropWhile cIsSpace
  match s1 with
  | '-' :: rest =>
      let ds := rest.takeWhile Char.isDigit
      if ds = [] then none else some (wrapInt8 (-(natOfDigits ds : Int)))
  | '+' :: rest =>
      let ds := rest.takeWhile Char.isDigit
      if ds = [] then none else some (wrapInt8 (natOfDigits ds : Int))
  | _ =>
      let ds := s1.takeWhile Char.isDigit
      if ds = [] then none else some (wrapInt8 (natOfDigits ds : Int))

/-- `option->bit` after parsing: whether a `'.'` suffix was present
(`bit.op`) and the parsed bit index (`none` when `sscanf` matched
nothing and the byte stays unwritten). -/
structure BitOption where
  op : Bool
  bit : Option Int
  deriving DecidableEq, Repr

/-- The `NEU_TYPE_BIT` case of `neu_datatag_parse_addr_option`: find the
last `'.'` in the address; if present, `sscanf(op, ".%hhd", &bit)` (the
result of which is not checked) and `bit.op = true`, else `bit.op =
false`.  `ret` is never set in this branch, so the first component (the
function's return value) is always `0`. -/
def neu_datatag_parse_addr_option_bit (address : String) : Int × BitOption :=
  match find_last_character address.toList '.' with
  | some op => (0, { op := true, bit := scan_hhd op.tail })
  | none => (0, { op := false, bit := none })

/-! ## Event loop (`src/event/event_linux.c`) -/

/-- `#define EVENT_SIZE 1400`: capacity of `neu_events.event_datas`. -/
def EVENT_SIZE : Nat := 1400

/-- The scan loop of `get_free_event`: starting at slot `i` with `fuel`
slots left to inspect, return the first index whose `use` flag is clear.
The slot table is modeled by its `use` column. -/
def get_free_event_loop (used : Nat → Bool) (i : Nat) : Nat → Option Nat
  | 0 => none
  | fuel + 1 =>
      if used i then get_free_event_loop used (i + 1) fuel else some i

/-- `get_free_event`: first unused slot among `0 .. EVENT_SIZE-1`, or
`none` for the C return value `-1`. -/
def get_free_event (used : Nat → Bool) : Option Nat :=
  get_free_event_loop used 0 EVENT_SIZE

/-- Observable outcome of `neu_event_add_timer` / `neu_event_add_io`:
either a slot is acquired and a handle into it returned, or
`get_free_event` returned `-1` and `assert(index >= 0)` aborts the
process (after `zlog_fatal`). -/
inductive AddEventResult where
  | ok (index : Nat)
  | fatalAssert
  deriving DecidableEq, Repr

/-- `neu_event_add_timer`, restricted to its slot-table behavior: acquire
a free slot; when the table is full the function does not return — it
fails the assertion.  (The timerfd creation, `epoll_ctl` registration and
field initialization do not influence this outcome.) -/
def neu_event_add_timer (used : Nat → Bool) : AddEventResult :=
  match get_free_event used with
  | some i => .ok i
  | none => .fatalAssert

/-- `neu_event_add_io`, restricted to its slot-table behavior; like
`neu_event_add_timer` it asserts `index >= 0`. -/
def neu_event_add_io (used : Nat → Bool) : AddEventResult :=
  match get_free_event used with
  | some i => .ok i
  | none => .fatalAssert

/-- `neu_event_timer_type_e`. -/
inductive TimerType where
  | block
  | nonblock
  deriving DecidableEq, Repr

/-- Primitive steps the `event_loop` thread performs while dispatching
one triggered timer, in program order. -/
inductive LoopAction where
  | epollCtlDel (fd : Nat)
  | callbackStart (fd : Nat)
  | callbackEnd (fd : Nat)
  | timerfdSettime (fd : Nat)
  | epollCtlAdd (fd : Nat)
  deriving DecidableEq, Repr

/-- One timer event delivered by `epoll_wait`: the timer's fd, whether
`EPOLLIN` is reported, the timer's `stop` flag at dispatch time, and its
type. -/
structure TimerFiring where
  fd : Nat
  epollin : Bool
  stop : Bool
  ttype : TimerType
  deriving DecidableEq, Repr

/-- The `case TIMER` arm of `event_loop`: under the timer mutex, if
`EPOLLIN` is set and the timer is not stopped, a BLOCK timer is removed
from the epoll set, its callback invoked, the timer re-armed with
`timerfd_settime` and re-added; a non-BLOCK timer's callback is simply
invoked.  The callback invocation is split into start/end markers. -/
def handle_timer_event (f : TimerFiring) : List LoopAction :=
  if f.epollin then
    if !f.stop then
      match f.ttype with
      | .block =>
          [.epollCtlDel f.fd, .callbackStart f.fd, .callbackEnd f.fd,
           .timerfdSettime f.fd, .epollCtlAdd f.fd]
      | .nonblock => [.callbackStart f.fd, .callbackEnd f.fd]
    else []
  else []

/-- The single `event_loop` thread handles the events `epoll_wait`
delivers one after another; the observable trace is the concatenation of
the per-event step lists. -/
def event_loop_trace : List TimerFiring → List LoopAction
  | [] => []
  | f :: fs => handle_timer_event f ++ event_loop_trace fs

/-- Non-reentrancy, as a trace property: every start of the callback of
timer `fd` is immediately followed by the matching end — no other loop
action, in particular no second start of the same callback, intervenes. -/
def StartFollowedByEnd (fd : Nat) (l : List LoopAction) : Prop :=
  ∀ l1 l2, l = l1 ++ LoopAction.callbackStart fd :: l2 →
    ∃ l2', l2 = LoopAction.callbackEnd fd :: l2'

/-! ## Messages (`src/base/msg_internal.h`) -/

/-- `neu_reqresp_type_e`, the message types of `NEU_REQRESP_TYPE_MAP`. -/
inductive MsgType where
  | respError
  | reqReadGroup | respReadGroup
  | reqWriteTag | reqWriteTags | reqWriteGtags
  | reqSubscribeGroup | reqUnsubscribeGroup | reqUpdateSubscribeGroup
  | reqSubscribeGroups
  | reqGetSubscribeGroup | respGetSubscribeGroup
  | reqGetSubDriverTags | respGetSubDriverTags
  | reqNodeInit | reqNodeUninit | respNodeUninit
  | reqAddNode | reqUpdateNode | reqDelNode
  | reqGetNode | respGetNode
  | reqNodeSetting | reqGetNodeSetting | respGetNodeSetting
  | reqGetNodeState | respGetNodeState
  | reqGetNodesState | respGetNodesState
  | reqNodeCtl
  | reqNodeRename | respNodeRename
  | reqAddGroup | reqDelGroup | reqUpdateGroup
  | reqUpdateDriverGroup | respUpdateDriverGroup
  | reqGetGroup | respGetGroup
  | reqGetDriverGroup | respGetDriverGroup
  | reqAddTag | respAddTag
  | reqAddGtag | respAddGtag
  | reqDelTag
  | reqUpdateTag | respUpdateTag
  | reqGetTag | respGetTag
  | reqAddPlugin | reqDelPlugin | reqUpdatePlugin
  | reqGetPlugin | respGetPlugin
  | reqrespTransData | reqrespNodesState | reqrespNodeDeleted
  | reqAddDrivers
  | reqUpdateLogLevel
  | reqPrgfileUpload | reqPrgfileProcess | respPrgfileProcess
  deriving DecidableEq, Repr

/-- The `switch (t)` of `neu_msg_new` choosing how large a body to
allocate: for the listed request types the body is sized after the
response that will be written in place; otherwise after the request's own
structure (`body_size = data_size`). -/
def msg_body_size_type : MsgType → MsgType
  | .reqGetPlugin => .respGetPlugin
  | .reqUpdateGroup => .respUpdateDriverGroup
  | .reqUpdateDriverGroup => .respUpdateDriverGroup
  | .reqUpdateNode => .respNodeRename
  | .reqNodeRename => .respNodeRename
  | .reqDelNode => .respNodeUninit
  | .reqGetNodeSetting => .respGetNodeSetting
  | .reqGetNodesState => .respGetNodesState
  | t => t

/-- A constructed `neu_msg_t`, reduced to the header fields `neu_msg_new`
sets plus the allocated body capacity and the number of bytes of `data`
copied into the body.  `ctx` is an opaque pointer, modeled as a number. -/
structure NeuMsg where
  htype : MsgType
  hlen : Nat
  hctx : Nat
  bodySize : Nat
  dataCopied : Nat
  deriving DecidableEq, Repr

/-- `neu_msg_new(t, ctx, data)` on the successful-allocation path.  The
struct sizes `sizeof(structure)` of `neu_reqresp_size` are opaque here and
passed as `sizes`; `headerSize` is `sizeof(neu_msg_t)`.  The header `len`
is set to the total allocated size `sizeof(neu_msg_t) + body_size`, and
`data_size = neu_reqresp_size(t)` bytes of `data` are copied when `data`
is non-NULL. -/
def neu_msg_new (sizes : MsgType → Nat) (headerSize : Nat) (t : MsgType)
    (ctx : Nat) (dataPresent : Bool) : NeuMsg :=
  let data_size := sizes t
  let body_size := sizes (msg_body_size_type t)
  let total := headerSize + body_size
  { htype := t
    hlen := total
    hctx := ctx
    bodySize := body_size
    dataCopied := if dataPresent then data_size else 0 }

/-! ## Manager (`src/core/manager_internal.c`)

The node manager, plugin manager and subscription manager are separate
translation units not present in this tree; their operations are modeled
from the specification (§4.6, §4.7) as noted on each definition.  Calls
whose outcome depends on the plugin or the filesystem
(`neu_plugin_manager_create_instance`, `neu_adapter_create`,
`neu_adapter_set_setting`, the three gtag phases) are modeled by outcome
oracles carried in the request. -/

/-- `neu_node_type_e`: `NEU_NA_TYPE_DRIVER` / `NEU_NA_TYPE_APP`. -/
inductive NodeType where
  | driver
  | app
  deriving DecidableEq, Repr

/-- The fields of `neu_resp_plugin_info_t` the manager flows read. -/
structure PluginInfo where
  name : String
  single : Bool
  ptype : NodeType
  deriving DecidableEq, Repr

/-- A registered adapter as the node manager sees it: name, its plugin's
`module_name`, node type, singleton flag, and (for drivers) the adapter's
group-name table. -/
structure NodeAdapter where
  name : String
  pluginName : String
  ptype : NodeType
  single : Bool
  groups : List String
  deriving DecidableEq, Repr

/-- Modelled from the spec: the result of `neu_parse_param` extracting
the `topic` field from the params JSON — `none` when absent or
unparsable (`elem.v.val_str == NULL`). -/
structure SubscribeParams where
  topic : Option String
  deriving DecidableEq, Repr

/-- A subscription tuple (driver, group, app, params); the cached bus
address is omitted. -/
structure Subscription where
  driver : String
  group : String
  app : String
  params : Option SubscribeParams
  deriving DecidableEq, Repr

/-- The manager-owned state: plugin registry, node-manager table and
subscription-manager table. -/
structure ManagerState where
  plugins : List PluginInfo
  nodes : List NodeAdapter
  subs : List Subscription
  deriving DecidableEq, Repr

/-- Modelled from the spec (§4.6 `find`): look an adapter up by name. -/
def neu_node_manager_find (st : ManagerState) (name : String) :
    Option NodeAdapter :=
  st.nodes.find? (fun a => a.name = name)

/-- Modelled from the spec (§4.6 `add`): register an adapter. -/
def neu_node_manager_add (st : ManagerState) (a : NodeAdapter) :
    ManagerState :=
  { st with nodes := st.nodes ++ [a] }

/-- Modelled from the spec (§4.6 `del`): drop the adapter of that name. -/
def neu_node_manager_del (st : ManagerState) (name : String) :
    ManagerState :=
  { st with nodes := st.nodes.filter (fun a => a.name ≠ name) }

/-- Modelled from the spec (§4.6 `is_single`). -/
def neu_node_manager_is_single (st : ManagerState) (name : String) : Bool :=
  match neu_node_manager_find st name with
  | some a => a.single
  | none => false

/-- Modelled from the spec: plugin lookup by name
(`neu_plugin_manager_find`). -/
def neu_plugin_manager_find (st : ManagerState) (name : String) :
    Option PluginInfo :=
  st.plugins.find? (fun p => p.name = name)

/-- Modelled from the spec (§4.7 `get(app, driver?, group?)`): the
subscriptions of `app`, optionally restricted to a driver and group. -/
def neu_subscribe_manager_get (subs : List Subscription) (app : String)
    (driver : Option String) (group : Option String) : List Subscription :=
  subs.filter (fun s =>
    s.app = app &&
    (match driver with | some d => s.driver = d | none => true) &&
    (match group with | some g => s.group = g | none => true))

/-- Modelled from the spec (§4.7 `find_by_driver(driver) → apps`): the
apps subscribed to any group of the driver, each once. -/
def neu_subscribe_manager_find_by_driver (subs : List Subscription)
    (driver : String) : List String :=
  ((subs.filter (fun s => s.driver = driver)).map (fun s => s.app)).dedup

/-- Modelled from the spec: `neu_subscribe_manager_remove(mgr, driver,
NULL)` drops every subscription of the driver (all groups). -/
def neu_subscribe_manager_remove (subs : List Subscription)
    (driver : String) : List Subscription :=
  subs.filter (fun s => s.driver ≠ driver)

/-- Modelled from the spec (§4.7 `unsub_all(app)`). -/
def neu_subscribe_manager_unsub_all (subs : List Subscription)
    (app : String) : List Subscription :=
  subs.filter (fun s => s.app ≠ app)

/-- Modelled from the spec (§4.7 `sub`, uniqueness on (driver, group,
app)): record the subscription, rejecting duplicates. -/
def neu_subscribe_manager_sub (subs : List Subscription)
    (driver app group : String) (params : Option SubscribeParams) :
    NeuErr × List Subscription :=
  if subs.any (fun s => s.driver = driver && s.app = app && s.group = group) then
    (.groupAlreadySubscribed, subs)
  else
    (.success, subs ++ [{ driver := driver, group := group, app := app,
                          params := params }])

/-- A message the manager produces on its bus socket during a flow
(`sender` is always `"manager"`). -/
inductive BusMsg where
  | nodeDeleted (receiver : String) (node : String)
  | unsubscribeGroup (receiver : String) (driver : String) (app : String)
      (group : String)
  deriving DecidableEq, Repr

/-- `neu_manager_add_node`: plugin must exist and not be a singleton, the
name must be free; create the plugin instance and the adapter (outcomes
`instanceOk` / `adapterOk`), register and init it; when a setting is
given and applying it fails (`settingErr ≠ success`), roll back
(unregister + uninit + destroy) and return that error. -/
def neu_manager_add_node (st : ManagerState) (nodeName pluginName : String)
    (setting : Option String) (instanceOk adapterOk : Bool)
    (settingErr : NeuErr) : NeuErr × ManagerState :=
  match neu_plugin_manager_find st pluginName with
  | none => (.libraryNotFound, st)
  | some info =>
      if info.single then (.libraryNotAllowCreateInstance, st)
      else
        match neu_node_manager_find st nodeName with
        | some _ => (.nodeExist, st)
        | none =>
            if !instanceOk then (.libraryFailedToOpen, st)
            else if !adapterOk then (.adapterCreateError, st)
            else
              let st1 := neu_node_manager_add st
                { name := nodeName, pluginName := info.name,
                  ptype := info.ptype, single := info.single, groups := [] }
              match setting with
              | some _ =>
                  if settingErr ≠ .success then
                    (settingErr, neu_node_manager_del st1 nodeName)
                  else (.success, st1)
              | none => (.success, st1)

/-- `neu_manager_del_node`: `NEU_ERR_NODE_NOT_EXIST` when absent,
otherwise destroy the adapter, drop all of its `(driver, *)`
subscriptions and unregister it. -/
def neu_manager_del_node (st : ManagerState) (nodeName : String) :
    NeuErr × ManagerState :=
  match neu_node_manager_find st nodeName with
  | none => (.nodeNotExist, st)
  | some _ =>
      (.success,
       { st with subs := neu_subscribe_manager_remove st.subs nodeName,
                 nodes := st.nodes.filter (fun a => a.name ≠ nodeName) })

/-- `del_node` (static, `manager_internal.c`): absent node is a no-op
returning 0; singletons are refused; for an APP, its subscriptions are
collected, dropped via `unsub_all`, and an `UNSUBSCRIBE_GROUP` is
forwarded to each subscription's driver; for a DRIVER, the subscriber
apps are collected and a `NODE_DELETED` forwarded to each; finally the
adapter is uninited and `neu_manager_del_node` unregisters it (the
persistence call has no in-memory effect). -/
def del_node (st : ManagerState) (node : String) :
    NeuErr × ManagerState × List BusMsg :=
  match neu_node_manager_find st node with
  | none => (.success, st, [])
  | some adapter =>
      if neu_node_manager_is_single st node then
        (.nodeNotAllowDelete, st, [])
      else
        let appStep : ManagerState × List BusMsg :=
          if adapter.ptype = .app then
            let subscriptions := neu_subscribe_manager_get st.subs node none none
            ({ st with subs := neu_subscribe_manager_unsub_all st.subs node },
             subscriptions.map (fun s =>
               BusMsg.unsubscribeGroup s.driver s.driver s.app s.group))
          else (st, [])
        let st1 := appStep.1
        let driverMsgs : List BusMsg :=
          if adapter.ptype = .driver then
            (neu_subscribe_manager_find_by_driver st1.subs node).map
              (fun appName => BusMsg.nodeDeleted appName node)
          else []
        let st2 := (neu_manager_del_node st1 node).2
        (.success, st2, appStep.2 ++ driverMsgs)

/-- `neu_req_driver_t` together with the outcome oracles of the
plugin/adapter calls `add_driver` makes for it: `instanceOk` and
`adapterOk` for instance/adapter creation, `settingErr` for
`neu_adapter_set_setting`, and `gtagErr` for the three gtag phases
(`resp.error`; `success` when all three pass). -/
structure DriverReq where
  node : String
  plugin : String
  setting : Option String
  groups : List String
  instanceOk : Bool
  adapterOk : Bool
  settingErr : NeuErr
  gtagErr : NeuErr
  deriving DecidableEq, Repr

/-- `add_driver` (static, `manager_internal.c`): first `del_node` any
node of the same name; then `neu_manager_add_node` (state false, load
false); then validate/try/commit the group-tag batch — on gtag failure
the freshly added node is uninited and removed again and `resp.error` is
returned; on success the groups are committed to the driver adapter. -/
def add_driver (st : ManagerState) (d : DriverReq) :
    NeuErr × ManagerState × List BusMsg :=
  let r0 := del_node st d.node
  if r0.1 ≠ .success then r0
  else
    let r1 := neu_manager_add_node r0.2.1 d.node d.plugin d.setting
      d.instanceOk d.adapterOk d.settingErr
    if r1.1 ≠ .success then (r1.1, r1.2, r0.2.2)
    else
      if d.gtagErr ≠ .success then
        (d.gtagErr, (neu_manager_del_node r1.2 d.node).2, r0.2.2)
      else
        (.success,
         { r1.2 with nodes := r1.2.nodes.map (fun a =>
             if a.name = d.node then { a with groups := d.groups } else a) },
         r0.2.2)

/-- The fast pre-check loop of `neu_manager_add_drivers`: every plugin
must exist, not be a singleton, be of DRIVER type, and the group count
must not exceed `NEU_GROUP_MAX_PER_NODE` (an opaque constant, passed as
`maxg`). -/
def add_drivers_fast_check (st : ManagerState) (maxg : Nat) :
    List DriverReq → NeuErr
  | [] => .success
  | d :: rest =>
      match neu_plugin_manager_find st d.plugin with
      | none => .libraryNotFound
      | some info =>
          if info.single then .libraryNotAllowCreateInstance
          else if info.ptype ≠ .driver then .pluginTypeNotSupport
          else if d.groups.length > maxg then .groupMaxGroups
          else add_drivers_fast_check st maxg rest

/-- The `while (i-- > 0)` rollback of `neu_manager_add_drivers`: uninit
and `neu_manager_del_node` each already-added driver (called here with
the already-added requests most recent first). -/
def add_drivers_rollback (st : ManagerState) : List DriverReq → ManagerState
  | [] => st
  | d :: rest => add_drivers_rollback (neu_manager_del_node st d.node).2 rest

/-- The apply loop of `neu_manager_add_drivers`: `add_driver` each
request in order; on the first failure roll back the already-added
prefix (`done`, in addition order) and stop with that error. -/
def add_drivers_loop (st : ManagerState) :
    List DriverReq → List DriverReq → NeuErr × ManagerState × List BusMsg
  | [], _done => (.success, st, [])
  | d :: rest, done =>
      let r := add_driver st d
      if r.1 ≠ .success then
        (r.1, add_drivers_rollback r.2.1 done.reverse, r.2.2)
      else
        let r2 := add_drivers_loop r.2.1 rest (done ++ [d])
        (r2.1, r2.2.1, r.2.2 ++ r2.2.2)

/-- `neu_manager_add_drivers`: fast pre-check, then apply one by one with
rollback on failure. -/
def neu_manager_add_drivers (maxg : Nat) (st : ManagerState)
    (reqs : List DriverReq) : NeuErr × ManagerState × List BusMsg :=
  let e := add_drivers_fast_check st maxg reqs
  if e = .success then add_drivers_loop st reqs [] else (e, st, [])

/-- `manager_subscribe` (static): the driver must exist and have the
group (`neu_adapter_driver_group_exist`), then the subscription is
recorded with the app's cached address. -/
def manager_subscribe (st : ManagerState) (app driver group : String)
    (params : Option SubscribeParams) : NeuErr × ManagerState :=
  match neu_node_manager_find st driver with
  | none => (.nodeNotExist, st)
  | some adapter =>
      if adapter.groups.contains group then
        let r := neu_subscribe_manager_sub st.subs driver app group params
        (r.1, { st with subs := r.2 })
      else (.groupNotExist, st)

/-- `neu_manager_subscribe`: the app must exist; when its plugin module
is `"MQTT"` and params carry a `topic` that parses to the empty string,
fail with `NEU_ERR_MQTT_SUBSCRIBE_FAILURE` before touching any state;
then the node must be an APP, and `manager_subscribe` does the rest. -/
def neu_manager_subscribe (st : ManagerState) (app driver group : String)
    (params : Option SubscribeParams) : NeuErr × ManagerState :=
  match neu_node_manager_find st app with
  | none => (.nodeNotExist, st)
  | some adapter =>
      let afterGuard : NeuErr × ManagerState :=
        if adapter.ptype ≠ .app then (.nodeNotAllowSubscribe, st)
        else manager_subscribe st app driver group params
      match params with
      | some p =>
          if adapter.pluginName = "MQTT" then
            match p.topic with
            | some t => if t = "" then (.mqttSubscribeFailure, st) else afterGuard
            | none => afterGuard
          else afterGuard
      | none => afterGuard

/-! ## Theorems: tag groups (C3, C4, C5) -/

/-- C4: `neu_group_change_test(g, last_ts, arg, fn)` invokes `fn` iff the
group's current timestamp differs from `last_ts`; when it does, it passes
the current timestamp, the array of exactly the STATIC tags, the array of
exactly the non-STATIC tags with READ or SUBSCRIBE, and the group's
interval. -/
theorem claim_C4_change_test (g : NeuGroup) (last_ts : Int) :
    (neu_group_change_test g last_ts = none ↔ g.timestamp = last_ts) ∧
    (g.timestamp ≠ last_ts →
      neu_group_change_test g last_ts =
        some (g.timestamp, (split_static_array g.tags).1,
              (split_static_array g.tags).2, g.interval)) ∧
    (∀ t, t ∈ (split_static_array g.tags).1 ↔
       t ∈ g.tags ∧ tagIsStatic t = true) ∧
    (∀ t, t ∈ (split_static_array g.tags).2 ↔
       t ∈ g.tags ∧ tagIsStatic t = false ∧ tagIsSubscribeOrRead t = true) := by
  refine ⟨?_, ?_, ?_, ?_⟩
  · unfold neu_group_change_test
    split_ifs with h
    · simp [h]
    · push_neg at h
      simp [h]
  · intro h
    simp [neu_group_change_test, h]
  · intro t
    simp [split_static_array, List.mem_filter]
  · intro t
    simp [split_static_array, List.mem_filter, and_assoc]

/-- Witness for C4 at a concrete changed group. -/
theorem claim_C4_witness :
    neu_group_change_test ⟨"g", [], 5, 1⟩ 0 =
      some (1, (split_static_array []).1, (split_static_array []).2, 5) :=
  (claim_C4_change_test ⟨"g", [], 5, 1⟩ 0).2.1 (by decide)

/-- C5: `neu_group_add_tag` returns TAG_NAME_CONFLICT and leaves the group
unchanged when the name exists, and otherwise inserts the tag with success;
`neu_group_update_tag` / `neu_group_del_tag` return TAG_NOT_EXIST and
leave the group unchanged when the name is absent, and otherwise succeed
and set the change timestamp to `now`. -/
theorem claim_C5_group_tag_errors (g : NeuGroup) (tag : NeuDatatag)
    (name : String) (now : Int) :
    (groupFindTag g tag.name ≠ none →
        neu_group_add_tag g tag now = (.tagNameConflict, g)) ∧
    (groupFindTag g tag.name = none →
        neu_group_add_tag g tag now =
          (.success, { g with tags := g.tags ++ [tag], timestamp := now })) ∧
    (groupFindTag g tag.name = none →
        neu_group_update_tag g tag now = (.tagNotExist, g)) ∧
    (groupFindTag g tag.name ≠ none →
        (neu_group_update_tag g tag now).1 = .success ∧
        (neu_group_update_tag g tag now).2.timestamp = now) ∧
    (groupFindTag g name = none →
        neu_group_del_tag g name now = (.tagNotExist, g)) ∧
    (groupFindTag g name ≠ none →
        (neu_group_del_tag g name now).1 = .success ∧
        (neu_group_del_tag g name now).2.timestamp = now) := by
  refine ⟨?_, ?_, ?_, ?_, ?_, ?_⟩ <;> intro h
  · obtain ⟨x, hx⟩ := Option.ne_none_iff_exists'.mp h
    simp [neu_group_add_tag, hx]
  · simp [neu_group_add_tag, h, update_timestamp]
  · simp [neu_group_update_tag, h]
  · obtain ⟨x, hx⟩ := Option.ne_none_iff_exists'.mp h
    simp [neu_group_update_tag, hx, update_timestamp]
  · simp [neu_group_del_tag, h]
  · obtain ⟨x, hx⟩ := Option.ne_none_iff_exists'.mp h
    simp [neu_group_del_tag, hx, update_timestamp]

/-- Witness for C5: a name conflict on a concrete group is rejected with
the group unchanged. -/
theorem claim_C5_witness :
    neu_group_add_tag
        ⟨"g", [⟨"t1", "1!400001", .int16, ⟨true, false, false, false⟩, 0, 0, ""⟩], 0, 0⟩
        ⟨"t1", "1!400002", .int32, ⟨true, false, false, false⟩, 0, 0, ""⟩ 9 =
      (.tagNameConflict,
       ⟨"g", [⟨"t1", "1!400001", .int16, ⟨true, false, false, false⟩, 0, 0, ""⟩], 0, 0⟩) :=
  (claim_C5_group_tag_errors
      ⟨"g", [⟨"t1", "1!400001", .int16, ⟨true, false, false, false⟩, 0, 0, ""⟩], 0, 0⟩
      ⟨"t1", "1!400002", .int32, ⟨true, false, false, false⟩, 0, 0, ""⟩ "x" 9).1
    (by decide)

/-- C3 counterexample: `neu_group_update` with the group's current
interval is a successful mutating operation (returns NEU_ERR_SUCCESS)
that does not advance `change_timestamp`. -/
theorem claim_C3_counterexample :
    (neu_group_update ⟨"g1", [], 1000, 5⟩ 1000 100).1 = NeuErr.success ∧
    ¬ ((5 : Int) < (neu_group_update ⟨"g1", [], 1000, 5⟩ 1000 100).2.timestamp) := by
  decide

/-- C3 amended: provided the wall clock is strictly ahead of the group's
timestamp, every successful mutation that changes the group (tag
add/update/delete, interval update to a different value) strictly
increases `change_timestamp`; an interval update to the current value
succeeds without touching the group at all. -/
theorem claim_C3_amended (g : NeuGroup) (tag : NeuDatatag) (tagName : String)
    (interval : Nat) (now : Int) (h : g.timestamp < now) :
    ((neu_group_add_tag g tag now).1 = .success →
        g.timestamp < (neu_group_add_tag g tag now).2.timestamp) ∧
    ((neu_group_update_tag g tag now).1 = .success →
        g.timestamp < (neu_group_update_tag g tag now).2.timestamp) ∧
    ((neu_group_del_tag g tagName now).1 = .success →
        g.timestamp < (neu_group_del_tag g tagName now).2.timestamp) ∧
    (g.interval ≠ interval →
        g.timestamp < (neu_group_update g interval now).2.timestamp) ∧
    (g.interval = interval → neu_group_update g interval now = (.success, g)) := by
  refine ⟨?_, ?_, ?_, ?_, ?_⟩
  · intro hs
    cases hx : groupFindTag g tag.name <;>
      simp [neu_group_add_tag, hx, update_timestamp, h] at hs ⊢
  · intro hs
    cases hx : groupFindTag g tag.name <;>
      simp [neu_group_update_tag, hx, update_timestamp, h] at hs ⊢
  · intro hs
    cases hx : groupFindTag g tagName <;>
      simp [neu_group_del_tag, hx, update_timestamp, h] at hs ⊢
  · intro hne
    simp [neu_group_update, hne, update_timestamp, h]
  · intro he
    simp [neu_group_update, he]

/-- Witness for C3 (amended) at a concrete group and clock reading. -/
theorem claim_C3_witness :
    (0 : Int) <
      (neu_group_add_tag ⟨"g", [], 7, 0⟩
        ⟨"t1", "a", .bit, ⟨true, false, false, false⟩, 0, 0, ""⟩ 3).2.timestamp :=
  (claim_C3_amended ⟨"g", [], 7, 0⟩
      ⟨"t1", "a", .bit, ⟨true, false, false, false⟩, 0, 0, ""⟩ "x" 7 3
      (by decide)).1 (by decide)

/-! ## Theorems: address-option parser (C9) -/

/-- Helper: `find_last_character` returns NULL exactly when the character
does not occur. -/
theorem find_last_character_eq_none_iff (l : List Char) (c : Char) :
    find_last_character l c = none ↔ c ∉ l := by
  induction l with
  | nil => simp [find_last_character]
  | cons a rest ih =>
      simp only [find_last_character]
      cases h : find_last_character rest c with
      | some r =>
          have hmem : c ∈ rest := by
            by_contra hc
            rw [ih.mpr hc] at h
            cases h
          simp [List.mem_cons, hmem]
      | none =>
          have hrest : c ∉ rest := ih.mp h
          by_cases hac : a = c
          · subst hac
            simp
          · rw [if_neg hac]
            constructor
            · intro _ hmem
              rcases List.mem_cons.mp hmem with hca | hcr
              · exact hac hca.symm
              · exact hrest hcr
            · intro _
              rfl

/-- C9 counterexample: a BIT tag whose address `"a"` has no `'.<n>'`
suffix is not rejected — `neu_datatag_parse_addr_option` returns 0 and
merely records `bit.op = false`. -/
theorem claim_C9_counterexample :
    (neu_datatag_parse_addr_option_bit "a").1 = 0 ∧
    (neu_datatag_parse_addr_option_bit "a").2.op = false := by
  decide

/-- C9 amended: for a BIT tag the parser always succeeds (returns 0),
whatever the address; it only records in `bit.op` whether a `'.'` suffix
is present (the parsed index is not range-checked against 0..15). -/
theorem claim_C9_amended (address : String) :
    (neu_datatag_parse_addr_option_bit address).1 = 0 ∧
    ((neu_datatag_parse_addr_option_bit address).2.op = true ↔
      '.' ∈ address.toList) := by
  unfold neu_datatag_parse_addr_option_bit
  cases h : find_last_character address.toList '.' with
  | none =>
      have h1 := (find_last_character_eq_none_iff _ _).mp h
      refine ⟨rfl, ?_⟩
      simpa using h1
  | some r =>
      have h2 : '.' ∈ address.toList := by
        by_contra hc
        rw [(find_last_character_eq_none_iff _ _).mpr hc] at h
        cases h
      refine ⟨rfl, ?_⟩
      simpa using h2

/-! ## Theorems: event-loop slot table (C6) -/

/-- Helper: the `get_free_event` scan finds nothing when every inspected
slot is in use. -/
theorem get_free_event_loop_eq_none (used : Nat → Bool) :
    ∀ (fuel i : Nat), (∀ j, j < fuel → used (i + j) = true) →
      get_free_event_loop used i fuel = none := by
  intro fuel
  induction fuel with
  | zero => intro i _; rfl
  | succ n ih =>
      intro i h
      have hi : used i = true := by simpa using h 0 (Nat.succ_pos n)
      rw [get_free_event_loop, if_pos hi]
      apply ih
      intro j hj
      have := h (j + 1) (by omega)
      rwa [show i + (j + 1) = i + 1 + j by omega] at this

/-- C6 counterexample: with every one of the 1400 slots in use,
`neu_event_add_timer` does not return an error to the caller — it fails
`assert(index >= 0)` and aborts the process. -/
theorem claim_C6_counterexample :
    neu_event_add_timer (fun _ => true) = AddEventResult.fatalAssert := by
  have h : get_free_event (fun _ => true) = none :=
    get_free_event_loop_eq_none _ EVENT_SIZE 0 (fun _ _ => rfl)
  simp [neu_event_add_timer, h]

/-- C6 amended: the event table has exactly 1400 slots, and when all of
them are in use both `neu_event_add_timer` and `neu_event_add_io` abort
the process through `assert(index >= 0)` (after `zlog_fatal`) instead of
returning an error. -/
theorem claim_C6_amended (used : Nat → Bool)
    (h : ∀ i, i < EVENT_SIZE → used i = true) :
    EVENT_SIZE = 1400 ∧
    neu_event_add_timer used = .fatalAssert ∧
    neu_event_add_io used = .fatalAssert := by
  have hg : get_free_event used = none := by
    apply get_free_event_loop_eq_none used EVENT_SIZE 0
    intro j hj
    simpa using h j hj
  exact ⟨rfl, by simp [neu_event_add_timer, hg], by simp [neu_event_add_io, hg]⟩

/-- Witness for C6 (amended) at the fully used table. -/
theorem claim_C6_witness :
    EVENT_SIZE = 1400 ∧
    neu_event_add_timer (fun _ => true) = .fatalAssert ∧
    neu_event_add_io (fun _ => true) = .fatalAssert :=
  claim_C6_amended (fun _ => true) (fun _ _ => rfl)

/-! ## Theorems: BLOCK timer dispatch (C7) -/

/-- Helper: in any trace the single-threaded loop produces, a callback
start is immediately followed by the matching callback end. -/
theorem event_loop_trace_start_followed (fd : Nat) :
    ∀ fs, StartFollowedByEnd fd (event_loop_trace fs) := by
  intro fs
  induction fs with
  | nil =>
      intro l1 l2 h
      rw [event_loop_trace] at h
      exact absurd h (by cases l1 <;> simp)
  | cons f fs ih =>
      intro l1 l2 h
      rw [event_loop_trace] at h
      by_cases hein : f.epollin = true
      case neg =>
          rw [handle_timer_event, if_neg hein, List.nil_append] at h
          exact ih l1 l2 h
      case pos =>
          by_cases hstp : f.stop = true
          · rw [handle_timer_event, if_pos hein] at h
            rw [hstp] at h
            simp only [Bool.not_true, Bool.false_eq_true, if_false,
              List.nil_append] at h
            exact ih l1 l2 h
          · cases hty : f.ttype with
            | block =>
                have hh : handle_timer_event f =
                    [.epollCtlDel f.fd, .callbackStart f.fd, .callbackEnd f.fd,
                     .timerfdSettime f.fd, .epollCtlAdd f.fd] := by
                  simp [handle_timer_event, hein, hstp, hty]
                rw [hh] at h
                rcases l1 with _ | ⟨x1, _ | ⟨x2, _ | ⟨x3, _ | ⟨x4, _ | ⟨x5, l1'⟩⟩⟩⟩⟩ <;>
                  simp only [List.cons_append, List.nil_append,
                    List.cons.injEq] at h
                · exact absurd h.1 (by simp)
                · obtain ⟨-, h2, h3⟩ := h
                  have hfd : f.fd = fd := by simpa using h2
                  exact ⟨_, by rw [← h3, hfd]⟩
                · exact absurd h.2.2.1 (by simp)
                · exact absurd h.2.2.2.1 (by simp)
                · exact absurd h.2.2.2.2.1 (by simp)
                · exact ih l1' l2 h.2.2.2.2.2
            | nonblock =>
                have hh : handle_timer_event f =
                    [.callbackStart f.fd, .callbackEnd f.fd] := by
                  simp [handle_timer_event, hein, hstp, hty]
                rw [hh] at h
                rcases l1 with _ | ⟨x1, _ | ⟨x2, l1'⟩⟩ <;>
                  simp only [List.cons_append, List.nil_append,
                    List.cons.injEq] at h
                · obtain ⟨h1, h2⟩ := h
                  have hfd : f.fd = fd := by
                    have := h1
                    simpa using this
                  exact ⟨_, by rw [← h2, hfd]⟩
                · exact absurd h.2.1 (by simp)
                · exact ih l1' l2 h.2.2

/-- C7: a BLOCK timer firing is handled in the order: remove the timer's
fd from the epoll readiness set, run the callback, re-arm the timer,
re-add the fd; and in any trace of the loop the callback of a given timer
is never re-entered while a previous invocation is still running (every
start is immediately followed by its end). -/
theorem claim_C7_block_timer (fd : Nat) :
    (∀ f : TimerFiring, f.epollin = true → f.stop = false →
        f.ttype = .block →
        handle_timer_event f =
          [.epollCtlDel f.fd, .callbackStart f.fd, .callbackEnd f.fd,
           .timerfdSettime f.fd, .epollCtlAdd f.fd]) ∧
    (∀ fs, StartFollowedByEnd fd (event_loop_trace fs)) :=
  ⟨fun f h1 h2 h3 => by simp [handle_timer_event, h1, h2, h3],
   event_loop_trace_start_followed fd⟩

/-- Witness for C7 at a concrete BLOCK firing. -/
theorem claim_C7_witness :
    handle_timer_event ⟨3, true, false, .block⟩ =
      [.epollCtlDel 3, .callbackStart 3, .callbackEnd 3, .timerfdSettime 3,
       .epollCtlAdd 3] ∧
    (∃ l2', [LoopAction.callbackEnd 3, .timerfdSettime 3, .epollCtlAdd 3] =
        LoopAction.callbackEnd 3 :: l2') :=
  ⟨(claim_C7_block_timer 3).1 ⟨3, true, false, .block⟩ rfl rfl rfl,
   (claim_C7_block_timer 3).2 [⟨3, true, false, .block⟩]
     [.epollCtlDel 3] [.callbackEnd 3, .timerfdSettime 3, .epollCtlAdd 3] rfl⟩

/-! ## Theorems: message construction (C10) -/

/-- C10: a message built by `neu_msg_new(t, ctx, data)` carries header
type `t`, header ctx `ctx`, and header `len` equal to the total allocated
size; for the eight request types listed in the body-size switch the
allocated body is at least as large as the corresponding response body,
so the buffer can carry the response in place. -/
theorem claim_C10_msg_new (sizes : MsgType → Nat) (headerSize : Nat)
    (t : MsgType) (ctx : Nat) (dataPresent : Bool) :
    (neu_msg_new sizes headerSize t ctx dataPresent).htype = t ∧
    (neu_msg_new sizes headerSize t ctx dataPresent).hctx = ctx ∧
    (neu_msg_new sizes headerSize t ctx dataPresent).hlen =
      headerSize + (neu_msg_new sizes headerSize t ctx dataPresent).bodySize ∧
    (t = .reqGetPlugin →
      sizes .respGetPlugin ≤ (neu_msg_new sizes headerSize t ctx dataPresent).bodySize) ∧
    (t = .reqUpdateGroup →
      sizes .respUpdateDriverGroup ≤ (neu_msg_new sizes headerSize t ctx dataPresent).bodySize) ∧
    (t = .reqUpdateDriverGroup →
      sizes .respUpdateDriverGroup ≤ (neu_msg_new sizes headerSize t ctx dataPresent).bodySize) ∧
    (t = .reqUpdateNode →
      sizes .respNodeRename ≤ (neu_msg_new sizes headerSize t ctx dataPresent).bodySize) ∧
    (t = .reqNodeRename →
      sizes .respNodeRename ≤ (neu_msg_new sizes headerSize t ctx dataPresent).bodySize) ∧
    (t = .reqDelNode →
      sizes .respNodeUninit ≤ (neu_msg_new sizes headerSize t ctx dataPresent).bodySize) ∧
    (t = .reqGetNodeSetting →
      sizes .respGetNodeSetting ≤ (neu_msg_new sizes headerSize t ctx dataPresent).bodySize) ∧
    (t = .reqGetNodesState →
      sizes .respGetNodesState ≤ (neu_msg_new sizes headerSize t ctx dataPresent).bodySize) := by
  refine ⟨rfl, rfl, rfl, ?_, ?_, ?_, ?_, ?_, ?_, ?_, ?_⟩ <;>
    (rintro rfl; simp [neu_msg_new, msg_body_size_type])

/-- Witness for C10 at `NEU_REQ_DEL_NODE` with unit struct sizes. -/
theorem claim_C10_witness :
    (fun _ => 3 : MsgType → Nat) .respNodeUninit ≤
      (neu_msg_new (fun _ => 3) 16 .reqDelNode 7 true).bodySize :=
  (claim_C10_msg_new (fun _ => 3) 16 .reqDelNode 7 true).2.2.2.2.2.2.2.2.1 rfl

/-! ## Theorems: empty MQTT topic (C8) -/

/-- C8: when the target app exists, its plugin module is `"MQTT"`, and
the params carry a `topic` that parses to the empty string,
`neu_manager_subscribe` fails with MQTT_SUBSCRIBE_FAILURE and the manager
state — in particular the subscription manager — is unchanged. -/
theorem claim_C8_empty_topic (st : ManagerState) (app driver group : String)
    (p : SubscribeParams) (a : NodeAdapter)
    (hfind : neu_node_manager_find st app = some a)
    (hmqtt : a.pluginName = "MQTT")
    (htopic : p.topic = some "") :
    neu_manager_subscribe st app driver group (some p) =
      (.mqttSubscribeFailure, st) := by
  simp [neu_manager_subscribe, hfind, hmqtt, htopic]

/-- Witness for C8 at a concrete MQTT app and empty topic. -/
theorem claim_C8_witness :
    neu_manager_subscribe
        ⟨[], [⟨"a1", "MQTT", .app, false, []⟩], []⟩ "a1" "d1" "g1"
        (some ⟨some ""⟩) =
      (.mqttSubscribeFailure, ⟨[], [⟨"a1", "MQTT", .app, false, []⟩], []⟩) :=
  claim_C8_empty_topic ⟨[], [⟨"a1", "MQTT", .app, false, []⟩], []⟩
    "a1" "d1" "g1" ⟨some ""⟩ ⟨"a1", "MQTT", .app, false, []⟩
    (by simp [neu_node_manager_find]) rfl rfl

/-! ## Theorems: driver deletion cascade (C1) -/

/-- Helper: what `del_node` computes for an existing, non-singleton
DRIVER node. -/
theorem del_node_driver_eq (st : ManagerState) (node : String)
    (a : NodeAdapter) (hfind : neu_node_manager_find st node = some a)
    (hsingle : a.single = false) (hdrv : a.ptype = .driver) :
    del_node st node =
      (.success,
       { plugins := st.plugins,
         nodes := st.nodes.filter (fun x => x.name ≠ node),
         subs := neu_subscribe_manager_remove st.subs node },
       (neu_subscribe_manager_find_by_driver st.subs node).map
         (fun appName => BusMsg.nodeDeleted appName node)) := by
  simp [del_node, hfind, neu_node_manager_is_single, hsingle, hdrv,
    neu_manager_del_node]

/-- Helper: `BusMsg.nodeDeleted · node` is injective in the receiver. -/
theorem nodeDeleted_injective (node : String) :
    Function.Injective (fun appName => BusMsg.nodeDeleted appName node) := by
  intro x y h
  simpa using h

/-- C1: when `del_node` deletes an existing, non-singleton driver, it
succeeds, the subscription manager afterwards holds no `(driver, *)`
subscription (so `get(app, driver, *)` is empty for every app), and
exactly one NODE_DELETED naming the driver is produced for each distinct
app that was subscribed to any of its groups — and none for any other
app. -/
theorem claim_C1_del_node_cascade (st : ManagerState) (node : String)
    (a : NodeAdapter) (hfind : neu_node_manager_find st node = some a)
    (hsingle : a.single = false) (hdrv : a.ptype = .driver) :
    (del_node st node).1 = .success ∧
    (∀ s ∈ (del_node st node).2.1.subs, s.driver ≠ node) ∧
    (∀ appName,
       neu_subscribe_manager_get (del_node st node).2.1.subs appName
         (some node) none = []) ∧
    (∀ appName, (∃ s ∈ st.subs, s.driver = node ∧ s.app = appName) →
       List.count (BusMsg.nodeDeleted appName node) (del_node st node).2.2 = 1) ∧
    (∀ appName, (∀ s ∈ st.subs, ¬(s.driver = node ∧ s.app = appName)) →
       List.count (BusMsg.nodeDeleted appName node) (del_node st node).2.2 = 0) := by
  rw [del_node_driver_eq st node a hfind hsingle hdrv]
  refine ⟨rfl, ?_, ?_, ?_, ?_⟩
  · intro s hs
    have := (List.mem_filter.mp hs).2
    simpa [neu_subscribe_manager_remove] using this
  · intro appName
    rw [neu_subscribe_manager_get, List.filter_eq_nil_iff]
    intro s hs
    have hd : s.driver ≠ node := by
      have := (List.mem_filter.mp hs).2
      simpa using this
    simp [hd]
  · intro appName ⟨s, hs, hsd, hsa⟩
    have hmem : appName ∈
        ((st.subs.filter (fun x => x.driver = node)).map
          (fun x => x.app)).dedup := by
      rw [List.mem_dedup]
      exact List.mem_map.mpr ⟨s, List.mem_filter.mpr ⟨hs, by simp [hsd]⟩, hsa⟩
    rw [neu_subscribe_manager_find_by_driver]
    rw [List.count_map_of_injective _ _ (nodeDeleted_injective node)]
    exact List.count_eq_one_of_mem (List.nodup_dedup _) hmem
  · intro appName hnone
    have hnmem : appName ∉
        ((st.subs.filter (fun x => x.driver = node)).map
          (fun x => x.app)).dedup := by
      rw [List.mem_dedup]
      rintro hm
      obtain ⟨s, hs, hsa⟩ := List.mem_map.mp hm
      have hsd : s.driver = node := by
        have := (List.mem_filter.mp hs).2
        simpa using this
      exact hnone s (List.mem_filter.mp hs).1 ⟨hsd, hsa⟩
    rw [neu_subscribe_manager_find_by_driver]
    rw [List.count_map_of_injective _ _ (nodeDeleted_injective node)]
    exact List.count_eq_zero_of_not_mem hnmem

/-- Witness for C1 at a concrete one-driver, one-subscription state. -/
theorem claim_C1_witness :
    (del_node ⟨[], [⟨"d1", "modbus", .driver, false, ["g1"]⟩],
        [⟨"d1", "g1", "a1", none⟩]⟩ "d1").1 = .success ∧
    List.count (BusMsg.nodeDeleted "a1" "d1")
      (del_node ⟨[], [⟨"d1", "modbus", .driver, false, ["g1"]⟩],
        [⟨"d1", "g1", "a1", none⟩]⟩ "d1").2.2 = 1 := by
  have h := claim_C1_del_node_cascade
    ⟨[], [⟨"d1", "modbus", .driver, false, ["g1"]⟩],
     [⟨"d1", "g1", "a1", none⟩]⟩ "d1"
    ⟨"d1", "modbus", .driver, false, ["g1"]⟩
    (by simp [neu_node_manager_find]) rfl rfl
  exact ⟨h.1, h.2.2.2.1 "a1" ⟨⟨"d1", "g1", "a1", none⟩, by simp, rfl, rfl⟩⟩

/-! ## Theorems: atomic driver batch (C2) — helper lemmas -/

/-- Helper: filtering with a predicate implied by the search predicate
does not change `find?`. -/
theorem find?_filter_of_imp {α : Type} (l : List α) (p q : α → Bool)
    (h : ∀ x, p x = true → q x = true) :
    (l.filter q).find? p = l.find? p := by
  induction l with
  | nil => simp
  | cons a t ih =>
      by_cases hq : q a = true
      · by_cases hp : p a = true
        · rw [List.filter_cons_of_pos hq, List.find?_cons_of_pos _ hp,
            List.find?_cons_of_pos _ hp]
        · rw [List.filter_cons_of_pos hq, List.find?_cons_of_neg _ hp,
            List.find?_cons_of_neg _ hp]
          exact ih
      · have hp : ¬p a = true := fun hpa => hq (h a hpa)
        rw [List.filter_cons_of_neg hq, List.find?_cons_of_neg _ hp]
        exact ih

/-- Helper: a name-keyed lookup finds nothing once that name is filtered
out. -/
theorem find_nodes_filter_self (nodes : List NodeAdapter) (m : String) :
    (nodes.filter (fun a => a.name ≠ m)).find? (fun a => a.name = m) = none := by
  rw [List.find?_eq_none]
  intro x hx
  have hne := (List.mem_filter.mp hx).2
  simp at hne ⊢
  exact hne

/-- Helper: filtering one name out does not change lookups of other
names. -/
theorem find_nodes_filter_other (nodes : List NodeAdapter) (m n : String)
    (h : n ≠ m) :
    (nodes.filter (fun a => a.name ≠ m)).find? (fun a => a.name = n) =
      nodes.find? (fun a => a.name = n) := by
  apply find?_filter_of_imp
  intro x hx
  simp at hx ⊢
  rw [hx]
  exact h

/-- Helper: `neu_manager_del_node` removes exactly the given name from
the node table. -/
theorem find_del_node_self (st : ManagerState) (m : String) :
    neu_node_manager_find (neu_manager_del_node st m).2 m = none := by
  unfold neu_manager_del_node
  cases h : neu_node_manager_find st m with
  | none => exact h
  | some a => exact find_nodes_filter_self st.nodes m

/-- Helper: `neu_manager_del_node` leaves lookups of other names
unchanged. -/
theorem find_del_node_other (st : ManagerState) (m n : String) (h : n ≠ m) :
    neu_node_manager_find (neu_manager_del_node st m).2 n =
      neu_node_manager_find st n := by
  unfold neu_manager_del_node
  cases hf : neu_node_manager_find st m with
  | none => rfl
  | some a => exact find_nodes_filter_other st.nodes m n h

/-- Helper: the node-manager lookup after `neu_node_manager_add`. -/
theorem find_node_add (st : ManagerState) (a : NodeAdapter) (n : String) :
    neu_node_manager_find (neu_node_manager_add st a) n =
      (neu_node_manager_find st n).or
        (if a.name = n then some a else none) := by
  unfold neu_node_manager_find neu_node_manager_add
  rw [List.find?_append]
  by_cases h : a.name = n
  · simp [h]
  · simp [h]

/-- Helper: `del_node` on an unregistered name is a no-op returning 0. -/
theorem del_node_fresh (st : ManagerState) (n : String)
    (h : neu_node_manager_find st n = none) :
    del_node st n = (.success, st, []) := by
  simp [del_node, h]

/-- Helper: the rollback never resurrects a name. -/
theorem rollback_keeps_none (ds : List DriverReq) :
    ∀ (st : ManagerState) (m : String),
      neu_node_manager_find st m = none →
      neu_node_manager_find (add_drivers_rollback st ds) m = none := by
  induction ds with
  | nil => intro st m h; exact h
  | cons d t ih =>
      intro st m h
      rw [add_drivers_rollback]
      apply ih
      by_cases hm : m = d.node
      · subst hm; exact find_del_node_self st d.node
      · rw [find_del_node_other st d.node m hm]; exact h

/-- Helper: the rollback removes every name it is given. -/
theorem rollback_removes (ds : List DriverReq) :
    ∀ (st : ManagerState) (m : String),
      m ∈ ds.map (fun d => d.node) →
      neu_node_manager_find (add_drivers_rollback st ds) m = none := by
  induction ds with
  | nil => intro st m h; cases h
  | cons d t ih =>
      intro st m h
      rw [add_drivers_rollback]
      rcases List.mem_cons.mp h with hm | hm
      · exact rollback_keeps_none t _ m (hm ▸ find_del_node_self st d.node)
      · exact ih _ m hm

/-- Helper: `neu_node_manager_del` removes exactly the given name. -/
theorem find_nn_del_self (st : ManagerState) (m : String) :
    neu_node_manager_find (neu_node_manager_del st m) m = none :=
  find_nodes_filter_self st.nodes m

/-- Helper: `neu_node_manager_del` leaves other lookups unchanged. -/
theorem find_nn_del_other (st : ManagerState) (m n : String) (h : n ≠ m) :
    neu_node_manager_find (neu_node_manager_del st m) n =
      neu_node_manager_find st n :=
  find_nodes_filter_other st.nodes m n h

/-- Helper: case analysis of `neu_manager_add_node` on a fresh name —
either it succeeds and the state is the old one with one adapter of that
name appended, or it fails and the state is unchanged (up to the
add-then-delete of the setting rollback). -/
theorem add_node_cases (st : ManagerState) (nm pn : String)
    (s : Option String) (io ao : Bool) (se : NeuErr)
    (hfresh : neu_node_manager_find st nm = none) :
    ((neu_manager_add_node st nm pn s io ao se).1 = .success ∧
      ∃ ad : NodeAdapter, ad.name = nm ∧
        (neu_manager_add_node st nm pn s io ao se).2 =
          neu_node_manager_add st ad) ∨
    ((neu_manager_add_node st nm pn s io ao se).1 ≠ .success ∧
      ((neu_manager_add_node st nm pn s io ao se).2 = st ∨
       ∃ ad : NodeAdapter, ad.name = nm ∧
         (neu_manager_add_node st nm pn s io ao se).2 =
           neu_node_manager_del (neu_node_manager_add st ad) nm)) := by
  cases hp : neu_plugin_manager_find st pn with
  | none =>
      right
      refine ⟨by simp [neu_manager_add_node, hp], Or.inl ?_⟩
      simp [neu_manager_add_node, hp]
  | some info =>
      by_cases hsg : info.single = true
      · right
        refine ⟨by simp [neu_manager_add_node, hp, hsg], Or.inl ?_⟩
        simp [neu_manager_add_node, hp, hsg]
      · have hsg' : info.single = false := by
          cases hb : info.single
          · rfl
          · exact absurd hb hsg
        by_cases hio : io = true
        · by_cases hao : ao = true
          · cases s with
            | none =>
                left
                refine ⟨by simp [neu_manager_add_node, hp, hsg', hfresh, hio, hao], ?_⟩
                refine ⟨⟨nm, info.name, info.ptype, info.single, []⟩, rfl, ?_⟩
                simp [neu_manager_add_node, hp, hsg', hfresh, hio, hao]
            | some sv =>
                by_cases hse : se = .success
                · left
                  refine ⟨by simp [neu_manager_add_node, hp, hsg', hfresh, hio, hao, hse], ?_⟩
                  refine ⟨⟨nm, info.name, info.ptype, info.single, []⟩, rfl, ?_⟩
                  simp [neu_manager_add_node, hp, hsg', hfresh, hio, hao, hse]
                · right
                  refine ⟨by simp [neu_manager_add_node, hp, hsg', hfresh, hio, hao, hse], Or.inr ?_⟩
                  refine ⟨⟨nm, info.name, info.ptype, info.single, []⟩, rfl, ?_⟩
                  simp [neu_manager_add_node, hp, hsg', hfresh, hio, hao, hse]
          · have hao' : ao = false := by
              cases hb : ao
              · rfl
              · exact absurd hb hao
            right
            refine ⟨by simp [neu_manager_add_node, hp, hsg', hfresh, hio, hao'], Or.inl ?_⟩
            simp [neu_manager_add_node, hp, hsg', hfresh, hio, hao']
        · have hio' : io = false := by
            cases hb : io
            · rfl
            · exact absurd hb hio
          right
          refine ⟨by simp [neu_manager_add_node, hp, hsg', hfresh, hio'], Or.inl ?_⟩
          simp [neu_manager_add_node, hp, hsg', hfresh, hio']

/-- Helper: committing groups to one adapter does not change lookups of
other names. -/
theorem find_map_update_other (nodes : List NodeAdapter) (x : String)
    (G : List String) (m : String) (h : m ≠ x) :
    (nodes.map (fun a =>
        if a.name = x then { a with groups := G } else a)).find?
      (fun a => a.name = m) = nodes.find? (fun a => a.name = m) := by
  induction nodes with
  | nil => rfl
  | cons a t ih =>
      simp only [List.map_cons]
      by_cases hax : a.name = x
      · have hnm : ¬(a.name = m) := fun hm => h (hm.symm.trans hax)
        rw [if_pos hax, List.find?_cons_of_neg _ (by simpa using hnm),
          List.find?_cons_of_neg _ (by simpa using hnm)]
        exact ih
      · rw [if_neg hax]
        by_cases ham : a.name = m
        · rw [List.find?_cons_of_pos _ (by simpa using ham),
            List.find?_cons_of_pos _ (by simpa using ham)]
        · rw [List.find?_cons_of_neg _ (by simpa using ham),
            List.find?_cons_of_neg _ (by simpa using ham)]
          exact ih

/-- Helper: committing groups to one adapter keeps that adapter
findable. -/
theorem find_map_update_self (nodes : List NodeAdapter) (x : String)
    (G : List String) :
    ((nodes.map (fun a =>
        if a.name = x then { a with groups := G } else a)).find?
      (fun a => a.name = x)).isSome =
    (nodes.find? (fun a => a.name = x)).isSome := by
  induction nodes with
  | nil => rfl
  | cons a t ih =>
      simp only [List.map_cons]
      by_cases hax : a.name = x
      · rw [if_pos hax, List.find?_cons_of_pos _ (by simpa using hax),
          List.find?_cons_of_pos _ (by simpa using hax)]
        rfl
      · rw [if_neg hax, List.find?_cons_of_neg _ (by simpa using hax),
          List.find?_cons_of_neg _ (by simpa using hax)]
        exact ih

/-- Helper: node lookups after `neu_manager_add_node` on a fresh name —
on success the new name is registered and nothing else changes; on
failure every lookup is as before. -/
theorem add_node_fresh_find (st : ManagerState) (nm pn : String)
    (s : Option String) (io ao : Bool) (se : NeuErr)
    (hfresh : neu_node_manager_find st nm = none) :
    ((neu_manager_add_node st nm pn s io ao se).1 = .success →
        neu_node_manager_find
          (neu_manager_add_node st nm pn s io ao se).2 nm ≠ none ∧
        ∀ m, m ≠ nm →
          neu_node_manager_find (neu_manager_add_node st nm pn s io ao se).2 m =
            neu_node_manager_find st m) ∧
    ((neu_manager_add_node st nm pn s io ao se).1 ≠ .success →
        ∀ m, neu_node_manager_find (neu_manager_add_node st nm pn s io ao se).2 m =
          neu_node_manager_find st m) := by
  rcases add_node_cases st nm pn s io ao se hfresh with
    ⟨hs, ad, hadname, heq⟩ | ⟨hf, heq | ⟨ad, hadname, heq⟩⟩
  · refine ⟨fun _ => ⟨?_, ?_⟩, fun hns => absurd hs hns⟩
    · rw [heq, find_node_add, hfresh, if_pos hadname]
      simp
    · intro m hm
      rw [heq, find_node_add,
        if_neg (fun hh : ad.name = m => hm (hh.symm.trans hadname)),
        Option.or_none]
  · exact ⟨fun hs => absurd hs hf, fun _ m => by rw [heq]⟩
  · refine ⟨fun hs => absurd hs hf, fun _ m => ?_⟩
    by_cases hm : m = nm
    · subst hm
      rw [heq, find_nn_del_self, hfresh]
    · rw [heq, find_nn_del_other _ _ _ hm, find_node_add,
        if_neg (fun hh : ad.name = m => hm (hh.symm.trans hadname)),
        Option.or_none]

/-- Helper: node lookups after `add_driver` on a fresh name — on success
the driver is registered and no other lookup changes; on failure every
lookup (including the fresh name) is as before. -/
theorem add_driver_fresh_find (st : ManagerState) (d : DriverReq)
    (hfresh : neu_node_manager_find st d.node = none) :
    ((add_driver st d).1 = .success →
        neu_node_manager_find (add_driver st d).2.1 d.node ≠ none ∧
        ∀ m, m ≠ d.node →
          neu_node_manager_find (add_driver st d).2.1 m =
            neu_node_manager_find st m) ∧
    ((add_driver st d).1 ≠ .success →
        ∀ m, neu_node_manager_find (add_driver st d).2.1 m =
          neu_node_manager_find st m) := by
  have hd := del_node_fresh st d.node hfresh
  have hN := add_node_fresh_find st d.node d.plugin d.setting d.instanceOk
    d.adapterOk d.settingErr hfresh
  by_cases h1 : (neu_manager_add_node st d.node d.plugin d.setting
      d.instanceOk d.adapterOk d.settingErr).1 = .success
  · obtain ⟨hself, hother⟩ := hN.1 h1
    by_cases hg : d.gtagErr = .success
    · have hA : add_driver st d =
          (.success,
           { (neu_manager_add_node st d.node d.plugin d.setting d.instanceOk
                d.adapterOk d.settingErr).2 with
             nodes := (neu_manager_add_node st d.node d.plugin d.setting
                d.instanceOk d.adapterOk d.settingErr).2.nodes.map
               (fun a => if a.name = d.node then { a with groups := d.groups }
                 else a) },
           []) := by
        simp [add_driver, hd, h1, hg]
      rw [hA]
      refine ⟨fun _ => ⟨?_, ?_⟩, fun hns => absurd rfl hns⟩
      · rw [Ne, ← Option.isSome_iff_ne_none.not_left]
        rw [show neu_node_manager_find
            { (neu_manager_add_node st d.node d.plugin d.setting d.instanceOk
                 d.adapterOk d.settingErr).2 with
              nodes := (neu_manager_add_node st d.node d.plugin d.setting
                 d.instanceOk d.adapterOk d.settingErr).2.nodes.map
                (fun a => if a.name = d.node then { a with groups := d.groups }
                  else a) } d.node =
            ((neu_manager_add_node st d.node d.plugin d.setting d.instanceOk
                d.adapterOk d.settingErr).2.nodes.map
              (fun a => if a.name = d.node then { a with groups := d.groups }
                else a)).find? (fun a => a.name = d.node) from rfl]
        rw [find_map_update_self]
        rw [show ((neu_manager_add_node st d.node d.plugin d.setting
            d.instanceOk d.adapterOk d.settingErr).2.nodes.find?
              (fun a => a.name = d.node)) =
            neu_node_manager_find (neu_manager_add_node st d.node d.plugin
              d.setting d.instanceOk d.adapterOk d.settingErr).2 d.node
          from rfl]
        simpa [Option.isSome_iff_ne_none] using hself
      · intro m hm
        rw [show neu_node_manager_find
            { (neu_manager_add_node st d.node d.plugin d.setting d.instanceOk
                 d.adapterOk d.settingErr).2 with
              nodes := (neu_manager_add_node st d.node d.plugin d.setting
                 d.instanceOk d.adapterOk d.settingErr).2.nodes.map
                (fun a => if a.name = d.node then { a with groups := d.groups }
                  else a) } m =
            ((neu_manager_add_node st d.node d.plugin d.setting d.instanceOk
                d.adapterOk d.settingErr).2.nodes.map
              (fun a => if a.name = d.node then { a with groups := d.groups }
                else a)).find? (fun a => a.name = m) from rfl]
        rw [find_map_update_other _ _ _ _ hm]
        exact hother m hm
    · have hA : add_driver st d =
          (d.gtagErr,
           (neu_manager_del_node (neu_manager_add_node st d.node d.plugin
              d.setting d.instanceOk d.adapterOk d.settingErr).2 d.node).2,
           []) := by
        simp [add_driver, hd, h1, hg]
      rw [hA]
      refine ⟨fun hs => absurd hs hg, fun _ m => ?_⟩
      by_cases hm : m = d.node
      · subst hm
        rw [find_del_node_self, hfresh]
      · rw [find_del_node_other _ _ _ hm]
        exact hother m hm
  · have hA : add_driver st d =
        ((neu_manager_add_node st d.node d.plugin d.setting d.instanceOk
            d.adapterOk d.settingErr).1,
         (neu_manager_add_node st d.node d.plugin d.setting d.instanceOk
            d.adapterOk d.settingErr).2,
         []) := by
      simp [add_driver, hd, h1]
    rw [hA]
    exact ⟨fun hs => absurd hs h1, fun _ m => hN.2 h1 m⟩

/-- Helper: invariant of the `neu_manager_add_drivers` apply loop — with
the pending names fresh and the already-applied names registered, the
loop ends with either all names registered (success) or none of them
(after rollback). -/
theorem add_drivers_loop_atomic :
    ∀ (rest done : List DriverReq) (st : ManagerState),
      ((done ++ rest).map (fun d => d.node)).Nodup →
      (∀ d ∈ rest, neu_node_manager_find st d.node = none) →
      (∀ d ∈ done, neu_node_manager_find st d.node ≠ none) →
      ((add_drivers_loop st rest done).1 = .success →
          ∀ d ∈ done ++ rest,
            neu_node_manager_find (add_drivers_loop st rest done).2.1 d.node ≠
              none) ∧
      ((add_drivers_loop st rest done).1 ≠ .success →
          ∀ d ∈ done ++ rest,
            neu_node_manager_find (add_drivers_loop st rest done).2.1 d.node =
              none) := by
  intro rest
  induction rest with
  | nil =>
      intro done st _ _ hreg
      rw [add_drivers_loop]
      refine ⟨fun _ d hd => ?_, fun hne => absurd rfl hne⟩
      rcases List.mem_append.mp hd with h | h
      · exact hreg d h
      · cases h
  | cons d rest ih =>
      intro done st hnd hfr hreg
      have hfd : neu_node_manager_find st d.node = none :=
        hfr d (List.mem_cons_self d rest)
      have hadl := add_driver_fresh_find st d hfd
      have hnd' : (done.map (fun x => x.node)).Nodup ∧
          (d.node :: rest.map (fun x => x.node)).Nodup ∧
          List.Disjoint (done.map (fun x => x.node))
            (d.node :: rest.map (fun x => x.node)) := by
        rw [List.map_append, List.map_cons] at hnd
        exact ⟨hnd.of_append_left, hnd.of_append_right,
          List.disjoint_of_nodup_append hnd⟩
      have hd_not_rest : d.node ∉ rest.map (fun x => x.node) :=
        (List.nodup_cons.mp hnd'.2.1).1
      have hdone_ne : ∀ e ∈ done, e.node ≠ d.node := fun e he hne =>
        hnd'.2.2 (List.mem_map_of_mem _ he)
          (hne ▸ List.mem_cons_self d.node _)
      rw [add_drivers_loop]
      by_cases h1 : (add_driver st d).1 = .success
      · obtain ⟨hself, hother⟩ := hadl.1 h1
        have hfr' : ∀ e ∈ rest,
            neu_node_manager_find (add_driver st d).2.1 e.node = none := by
          intro e he
          have hne : e.node ≠ d.node := fun hh =>
            hd_not_rest (hh ▸ List.mem_map_of_mem _ he)
          rw [hother e.node hne]
          exact hfr e (List.mem_cons_of_mem d he)
        have hreg' : ∀ e ∈ done ++ [d],
            neu_node_manager_find (add_driver st d).2.1 e.node ≠ none := by
          intro e he
          rcases List.mem_append.mp he with h | h
          · rw [hother e.node (hdone_ne e h)]
            exact hreg e h
          · rw [List.mem_singleton.mp h]
            exact hself
        have hnd2 : (((done ++ [d]) ++ rest).map (fun x => x.node)).Nodup := by
          rw [show (done ++ [d]) ++ rest = done ++ d :: rest by simp]
          exact hnd
        have hih := ih (done ++ [d]) (add_driver st d).2.1 hnd2 hfr' hreg'
        simp only [h1, ne_eq, not_true_eq_false, if_false]
        have hmem : ∀ e, e ∈ done ++ d :: rest ↔ e ∈ (done ++ [d]) ++ rest := by
          intro e
          rw [show (done ++ [d]) ++ rest = done ++ d :: rest by simp]
        refine ⟨fun hs e he => ?_, fun hs e he => ?_⟩
        · exact hih.1 hs e ((hmem e).mp he)
        · exact hih.2 hs e ((hmem e).mp he)
      · have hfail := hadl.2 h1
        simp only [h1, ne_eq, not_false_eq_true, if_true]
        refine ⟨fun hs => hs.elim, fun _ e he => ?_⟩
        rcases List.mem_append.mp he with hdone | hdrest
        · apply rollback_removes
          rw [List.map_reverse, List.mem_reverse]
          exact List.mem_map_of_mem _ hdone
        · apply rollback_keeps_none
          rcases List.mem_cons.mp hdrest with rfl | htail
          · rw [hfail e.node]
            exact hfd
          · rw [hfail e.node]
            exact hfr e (List.mem_cons_of_mem d htail)

/-- C2: `neu_manager_add_drivers` is atomic — for a batch of fresh,
pairwise-distinct driver names, either it returns 0 and every requested
node is registered in the node manager, or it returns a nonzero error
and none of the requested nodes is registered afterwards. -/
theorem claim_C2_add_drivers_atomic (maxg : Nat) (st : ManagerState)
    (reqs : List DriverReq)
    (hnd : (reqs.map (fun d => d.node)).Nodup)
    (hfr : ∀ d ∈ reqs, neu_node_manager_find st d.node = none) :
    ((neu_manager_add_drivers maxg st reqs).1 = .success →
        ∀ d ∈ reqs,
          neu_node_manager_find (neu_manager_add_drivers maxg st reqs).2.1
            d.node ≠ none) ∧
    ((neu_manager_add_drivers maxg st reqs).1 ≠ .success →
        ∀ d ∈ reqs,
          neu_node_manager_find (neu_manager_add_drivers maxg st reqs).2.1
            d.node = none) := by
  by_cases hfc : add_drivers_fast_check st maxg reqs = .success
  · have hA : neu_manager_add_drivers maxg st reqs =
        add_drivers_loop st reqs [] := by
      simp [neu_manager_add_drivers, hfc]
    rw [hA]
    have h := add_drivers_loop_atomic reqs [] st (by simpa using hnd) hfr
      (by simp)
    exact ⟨fun h1 d hd => h.1 h1 d (by simpa using hd),
           fun h1 d hd => h.2 h1 d (by simpa using hd)⟩
  · have hA : neu_manager_add_drivers maxg st reqs =
        (add_drivers_fast_check st maxg reqs, st, []) := by
      simp [neu_manager_add_drivers, hfc]
    rw [hA]
    exact ⟨fun hs => absurd hs hfc, fun _ d hd => hfr d hd⟩

/-- Witness for C2: a one-element batch on a fresh name succeeds and the
driver is registered afterwards. -/
theorem claim_C2_witness :
    neu_node_manager_find
      (neu_manager_add_drivers 8 ⟨[⟨"modbus", false, .driver⟩], [], []⟩
        [⟨"d1", "modbus", none, ["g1"], true, true, .success, .success⟩]).2.1
      "d1" ≠ none :=
  (claim_C2_add_drivers_atomic 8 ⟨[⟨"modbus", false, .driver⟩], [], []⟩
      [⟨"d1", "modbus", none, ["g1"], true, true, .success, .success⟩]
      (by simp) (by simp [neu_node_manager_find])).1
    (by decide)
    ⟨"d1", "modbus", none, ["g1"], true, true, .success, .success⟩
    (List.mem_singleton.mpr rfl)

end Neuron
